import Mathlib

/-!
# AsteroidsRemake: the simulation core of `Game.cpp`

A shallow embedding of `SDL2_Asteroids/src/Game.cpp` (with `Game.h`, `Ship.h`).

Conventions of the embedding.

* A finite C++ `float`/`double` value is modelled by the rational number it stands for.
  Comparisons, negation, assignments, `std::min`/`std::max` and the conversions used
  here are exact on finite floats, so the branching of the code is modelled faithfully.
  Rounding of arithmetic results, overflow, infinities and NaN are not modelled.
* `int` values are `Int`. Signed overflow is undefined behaviour in C++, so an operation
  that would overflow is undefined in the model (`none`).
* `std::unordered_map<int, Asteroid>` is an association list. The order of the list is
  the insertion order and carries no meaning; `insert` does not overwrite.
* Rendering, audio, text and input are outside the model.
-/

namespace Asteroids

/-! ## Data model -/

/-- The two float components of a `glm::vec2`. -/
structure Vec2 where
  x : ℚ
  y : ℚ
deriving DecidableEq

/-- Modelled from the spec: `SpaceObject.h` is not among the sources. The fields are the
ones `Game.cpp` and `Ship.h` use (`mPosition`, `mSize`, `mRotation`) and the constructor
call `SpaceObject( position, velocity, rotation, size )` fills; `mSize` is an integer
(it is passed through `static_cast< float >`, and the size constants of `Game.h` are
`int`). -/
structure SpaceObject where
  mPosition : Vec2
  mVelocity : Vec2
  mRotation : ℚ
  mSize : Int
deriving DecidableEq

/-- An `SDL_Color`: red, green, blue, alpha. -/
structure SDL_Color where
  r : Nat
  g : Nat
  b : Nat
  a : Nat
deriving DecidableEq

/-- Modelled from the spec: `Asteroid.h` is not among the sources. An asteroid embeds a
`SpaceObject` and a draw colour, the two arguments of the constructor call
`Asteroid( obj, SDL_Color( ... ) )` in `Game::AddAsteroid`. -/
structure Asteroid where
  mAsteroid : SpaceObject
  mColor : SDL_Color
deriving DecidableEq

/-- The members of `Ship` (`Ship.h`) that `Game.cpp` reaches: the ship's own
`SpaceObject` (`GetSpaceObject`) and its colour. Bullets and sounds are left out. -/
structure Ship where
  mShip : SpaceObject
  mColor : SDL_Color
deriving DecidableEq

/-- Modelled from the spec: the constructor `Ship::Ship( position, color )` is defined in
`Ship.cpp`, which is not among the sources. It places the ship's `SpaceObject` at
`position` (the spawn position) and keeps the colour; the velocity, rotation and size it
starts with are not determined by the sources and come from `init`. -/
def Ship.new (init : SpaceObject) (position : Vec2) (color : SDL_Color) : Ship :=
  { mShip := { init with mPosition := position }, mColor := color }

/-- The members of `Game` that the modelled operations read or write. `mShip` is a
pointer (`none` is `nullptr`); `mTicksCount` is a `uint64_t`; `mAsteroidsIndex` is an
`int`. `mIsDead` is used by `Game.cpp` although `Game.h` does not declare it. -/
structure Game where
  mIsRunning : Bool
  mIsDead : Bool
  mAsteroidsMap : List (Int × Asteroid)
  mShip : Option Ship
  mTicksCount : Nat
  mDeltaTime : ℚ
  mAsteroidsIndex : Int
  mScoreCount : Int
deriving DecidableEq

/-- The window width of `Game.h`. -/
def SCREEN_WIDTH : Int := 800

/-- The window height of `Game.h`. -/
def SCREEN_HEIGHT : Int := 600

/-- The largest `int` (32 bits). -/
def INT_MAX : Int := 2147483647

/-- The smallest `int` (32 bits). -/
def INT_MIN : Int := -2147483648

/-- The value of `std::numeric_limits<float>::max()`: `(2^24 - 1) * 2^104`. -/
def FLT_MAX : ℚ := (2 ^ 24 - 1) * 2 ^ 104

/-- The value of `std::numeric_limits<float>::min()`: the smallest positive normal
float, `2^-126`. -/
def FLT_MIN : ℚ := 1 / 2 ^ 126

/-- The state the private constructor `Game()` of `Game.h` builds: null ship, no
asteroids, all counters zero. The constructor does not initialise the death flag; it is
taken to be `false`. -/
def Game.ctor : Game :=
  { mIsRunning := false, mIsDead := false, mAsteroidsMap := [], mShip := none,
    mTicksCount := 0, mDeltaTime := 0, mAsteroidsIndex := 0, mScoreCount := 0 }

/-! ## The asteroid map -/

/-- The keys of the asteroid map. -/
def keys (m : List (Int × Asteroid)) : List Int := m.map Prod.fst

/-- The call `std::unordered_map::insert( { k, v } )`: the entry is added when no entry
has key `k`, and the map is left as it is otherwise. -/
def mapInsert (m : List (Int × Asteroid)) (k : Int) (v : Asteroid) : List (Int × Asteroid) :=
  if k ∈ keys m then m else m ++ [(k, v)]

/-! ## `Game::WrapCoordinates` -/

/-- The body of `Game::WrapCoordinates( SpaceObject& obj )`: the object after the call. -/
def WrapCoordinates (obj : SpaceObject) : SpaceObject :=
  let fSize : ℚ := (obj.mSize : ℚ)
  let x1 : ℚ :=
    if obj.mPosition.x > (SCREEN_WIDTH : ℚ) + fSize then -fSize
    else if obj.mPosition.x < -fSize then (SCREEN_WIDTH : ℚ) + fSize
    else obj.mPosition.x
  let y1 : ℚ :=
    if obj.mPosition.y > (SCREEN_HEIGHT : ℚ) + fSize then -fSize
    else if obj.mPosition.y < -fSize then (SCREEN_HEIGHT : ℚ) + fSize
    else obj.mPosition.y
  { obj with mPosition := { x := x1, y := y1 } }

/-! ## `Game::AddAsteroid`, `Game::RestartGame`, `Game::SetIsDead` -/

/-- The body of `Game::AddAsteroid( obj )`: `++mAsteroidsIndex`, then the insertion of a
yellow asteroid under the new index. The increment of an `int` that holds `INT_MAX` is
undefined behaviour: the model gives `none` there. -/
def AddAsteroid (obj : SpaceObject) (g : Game) : Option Game :=
  if g.mAsteroidsIndex < INT_MAX then
    let index : Int := g.mAsteroidsIndex + 1
    some { g with
      mAsteroidsIndex := index
      mAsteroidsMap := mapInsert g.mAsteroidsMap index ⟨obj, ⟨255, 255, 0, 255⟩⟩ }
  else none

/-- The body of `Game::RestartGame()`: a new ship at `(400, 500)`, the index counter set
to zero, seven `AddAsteroid` calls, the death flag cleared. The new timer, the HUD texts
and the restart sound are outside the model; `mTicksCount` is not touched by the code.
`shipInit` carries what the `Ship` constructor chooses (see `Ship.new`). -/
def RestartGame (shipInit : SpaceObject) (g : Game) : Option Game := do
  let g := { g with mShip := some (Ship.new shipInit ⟨400, 500⟩ ⟨0, 255, 0, 255⟩) }
  let g := { g with mAsteroidsIndex := 0 }
  let g ← AddAsteroid ⟨⟨75, 450⟩, ⟨8, -6⟩, 1 / 2, 48⟩ g
  let g ← AddAsteroid ⟨⟨75, 250⟩, ⟨8, -6⟩, 1 / 2, 48⟩ g
  let g ← AddAsteroid ⟨⟨185, 225⟩, ⟨8, -6⟩, 1 / 2, 48⟩ g
  let g ← AddAsteroid ⟨⟨300, 100⟩, ⟨8, -6⟩, 1 / 2, 96⟩ g
  let g ← AddAsteroid ⟨⟨600, 130⟩, ⟨8, -6⟩, 1 / 2, 96⟩ g
  let g ← AddAsteroid ⟨⟨300, 400⟩, ⟨8, -6⟩, 1 / 2, 96⟩ g
  let g ← AddAsteroid ⟨⟨600, 400⟩, ⟨8, -6⟩, 1 / 2, 96⟩ g
  pure { g with mIsDead := false }

/-- The body of `Game::SetIsDead( isDead )`: the flag is stored and the map is cleared,
whatever `isDead` is. -/
def SetIsDead (isDead : Bool) (g : Game) : Game :=
  { g with mIsDead := isDead, mAsteroidsMap := [] }

/-! ## `Game::Update` -/

/-- The measured delta of `Game::Update`,
`( mTimer->PeekMilliseconds() - mTicksCount ) / 1000.0f`. `peek` is the value the timer
returned, a millisecond count (`Timer.h` is not among the sources, so the reading is a
parameter); the difference is taken in `uint64_t` arithmetic, modulo `2^64`. -/
def measuredDelta (peek ticks : Nat) : ℚ :=
  (((peek % 2 ^ 64 + (2 ^ 64 - ticks % 2 ^ 64)) % 2 ^ 64 : Nat) : ℚ) / 1000

/-- Lines 59-60 of `Game::Update`: `if ( mDeltaTime > 0.05f ) mDeltaTime = 0.05f;`. -/
def clampDeltaTime (g : Game) : Game :=
  if g.mDeltaTime > 1 / 20 then { g with mDeltaTime := 1 / 20 } else g

/-- The body of `Game::Update()`. `peek1` and `peek2` are the two readings of the timer;
`shipUpdate` and `asteroidUpdate` stand for `Ship::Update( deltaTime )` and
`Asteroid::Update( deltaTime )`, both defined outside the sources. `Ship::Update` reaches
the game through the singleton, but only through the public interface of `Game`, which
writes neither `mDeltaTime` nor `mTicksCount`: the two members keep their values across
the call. The FPS text is outside the model. Calling `mShip->Update` or
`mShip->GetSpaceObject` on a null ship is undefined: the model gives `none`. -/
def Update (shipUpdate : ℚ → Game → Game) (asteroidUpdate : ℚ → Asteroid → Asteroid)
    (peek1 peek2 : Nat) (g : Game) : Option Game :=
  let g := { g with mDeltaTime := measuredDelta peek1 g.mTicksCount }
  let g := clampDeltaTime g
  let g := { g with mTicksCount := peek2 % 2 ^ 64 }
  if !g.mIsDead then
    match g.mShip with
    | none => none
    | some _ =>
      let g := { shipUpdate g.mDeltaTime g with
        mDeltaTime := g.mDeltaTime, mTicksCount := g.mTicksCount }
      match g.mShip with
      | none => none
      | some ship =>
        let g := { g with mShip := some { ship with mShip := WrapCoordinates ship.mShip } }
        some { g with
          mAsteroidsMap := g.mAsteroidsMap.map fun a => (a.1, asteroidUpdate g.mDeltaTime a.2) }
  else some g

/-- A run of `Game::Update` calls, one for each pair of timer readings. -/
def runUpdates (shipUpdate : ℚ → Game → Game) (asteroidUpdate : ℚ → Asteroid → Asteroid) :
    List (Nat × Nat) → Game → Option Game
  | [], g => some g
  | t :: ts, g =>
    (Update shipUpdate asteroidUpdate t.1 t.2 g).bind (runUpdates shipUpdate asteroidUpdate ts)

/-! ## `Game::DrawWireFrameModel` -/

/-- The three transform loops of `Game::DrawWireFrameModel`: rotate every vertex by `r`,
then scale by `s`, then translate by `(x, y)`. `cosf` and `sinf` are the library
functions, taken as parameters. -/
def transformVertices (cosf sinf : ℚ → ℚ)
    (vecModelCoordinates : List (ℚ × ℚ)) (x y r s : ℚ) : List (ℚ × ℚ) :=
  let rotated := vecModelCoordinates.map fun v =>
    (v.1 * cosf r - v.2 * sinf r, v.1 * sinf r + v.2 * cosf r)
  let scaled := rotated.map fun v => (v.1 * s, v.2 * s)
  scaled.map fun v => (v.1 + x, v.2 + y)

/-- The conversion `static_cast< int >( d )` of a finite `double`: truncation toward
zero, undefined (`none`) when the truncated value is not an `int`. -/
def staticCastInt (d : ℚ) : Option Int :=
  let t : Int := if 0 ≤ d then ⌊d⌋ else ⌈d⌉
  if INT_MIN ≤ t ∧ t ≤ INT_MAX then some t else none

/-- The lambda `clampToIntRange` of `Game::DrawWireFrameModel`:
`static_cast< int >( std::max( Min, std::min( Max, value ) ) )` with
`Max = numeric_limits<float>::max()` and `Min = numeric_limits<float>::min()`. -/
def clampToIntRange (value : ℚ) : Option Int :=
  staticCastInt (max FLT_MIN (min FLT_MAX value))

/-- The drawing loop of `Game::DrawWireFrameModel`: for every vertex `i` the segment from
vertex `i` to vertex `( i + 1 ) % verts`, each coordinate passed through
`clampToIntRange`. The result lists the integer end points from which the `glm::vec2`
arguments of `DrawLine` are built; it is `none` when a conversion is undefined. -/
def drawClosedPolygon (vecTransformedCoordinates : List (ℚ × ℚ)) :
    Option (List ((Int × Int) × (Int × Int))) :=
  let verts := vecTransformedCoordinates.length
  (List.range verts).mapM fun i =>
    let j := (i + 1) % verts
    let a := vecTransformedCoordinates.getD i (0, 0)
    let b := vecTransformedCoordinates.getD j (0, 0)
    do
      let ax ← clampToIntRange a.1
      let ay ← clampToIntRange a.2
      let bx ← clampToIntRange b.1
      let by_ ← clampToIntRange b.2
      pure ((ax, ay), (bx, by_))

/-- The body of `Game::DrawWireFrameModel( renderer, vecModelCoordinates, x, y, r, s )`:
the segments drawn. -/
def DrawWireFrameModel (cosf sinf : ℚ → ℚ) (vecModelCoordinates : List (ℚ × ℚ))
    (x y r s : ℚ) : Option (List ((Int × Int) × (Int × Int))) :=
  drawClosedPolygon (transformVertices cosf sinf vecModelCoordinates x y r s)

/-! ## Reachable states -/

/-- The states reachable from an initial state (no asteroids, index counter zero) by
`AddAsteroid`, `SetIsDead` and `RestartGame`. -/
inductive Reachable : Game → Prop
  | init (g : Game) : g.mAsteroidsMap = [] → g.mAsteroidsIndex = 0 → Reachable g
  | addAsteroid (g g1 : Game) (obj : SpaceObject) :
      Reachable g → AddAsteroid obj g = some g1 → Reachable g1
  | setIsDead (g : Game) (isDead : Bool) : Reachable g → Reachable (SetIsDead isDead g)
  | restartGame (g g1 : Game) (shipInit : SpaceObject) :
      Reachable g → RestartGame shipInit g = some g1 → Reachable g1

/-- The reachable states when `RestartGame` is only invoked on an empty asteroid map, as
it is in `Init` (fresh game) and after `SetIsDead`. -/
inductive ReachableEmptyRestart : Game → Prop
  | init (g : Game) :
      g.mAsteroidsMap = [] → g.mAsteroidsIndex = 0 → ReachableEmptyRestart g
  | addAsteroid (g g1 : Game) (obj : SpaceObject) :
      ReachableEmptyRestart g → AddAsteroid obj g = some g1 → ReachableEmptyRestart g1
  | setIsDead (g : Game) (isDead : Bool) :
      ReachableEmptyRestart g → ReachableEmptyRestart (SetIsDead isDead g)
  | restartGame (g g1 : Game) (shipInit : SpaceObject) :
      ReachableEmptyRestart g → g.mAsteroidsMap = [] → RestartGame shipInit g = some g1 →
      ReachableEmptyRestart g1

/-- One step inside a game session: an `AddAsteroid` or a `SetIsDead` call (a
`RestartGame` call starts the next session). -/
inductive SessionStep : Game → Game → Prop
  | addAsteroid (g g1 : Game) (obj : SpaceObject) :
      AddAsteroid obj g = some g1 → SessionStep g g1
  | setIsDead (g : Game) (isDead : Bool) : SessionStep g (SetIsDead isDead g)

/-! ## Theorems -/

/-! ### `WrapCoordinates` -/

theorem WrapCoordinates_x (obj : SpaceObject) :
    (WrapCoordinates obj).mPosition.x =
      if obj.mPosition.x > 800 + (obj.mSize : ℚ) then -(obj.mSize : ℚ)
      else if obj.mPosition.x < -(obj.mSize : ℚ) then 800 + (obj.mSize : ℚ)
      else obj.mPosition.x := by
  simp [WrapCoordinates, SCREEN_WIDTH]

theorem WrapCoordinates_y (obj : SpaceObject) :
    (WrapCoordinates obj).mPosition.y =
      if obj.mPosition.y > 600 + (obj.mSize : ℚ) then -(obj.mSize : ℚ)
      else if obj.mPosition.y < -(obj.mSize : ℚ) then 600 + (obj.mSize : ℚ)
      else obj.mPosition.y := by
  simp [WrapCoordinates, SCREEN_HEIGHT]

theorem WrapCoordinates_eq_self (obj : SpaceObject)
    (hx1 : -(obj.mSize : ℚ) ≤ obj.mPosition.x) (hx2 : obj.mPosition.x ≤ 800 + (obj.mSize : ℚ))
    (hy1 : -(obj.mSize : ℚ) ≤ obj.mPosition.y) (hy2 : obj.mPosition.y ≤ 600 + (obj.mSize : ℚ)) :
    WrapCoordinates obj = obj := by
  have hx := WrapCoordinates_x obj
  have hy := WrapCoordinates_y obj
  rw [if_neg (not_lt.mpr hx2), if_neg (not_lt.mpr hx1)] at hx
  rw [if_neg (not_lt.mpr hy2), if_neg (not_lt.mpr hy1)] at hy
  cases obj with
  | mk pos vel rot size =>
    cases pos with
    | mk px py =>
      simp only [WrapCoordinates] at hx hy ⊢
      simp only [SpaceObject.mk.injEq, Vec2.mk.injEq, and_true, true_and]
      exact ⟨hx, hy⟩

/-- C1. `Game::WrapCoordinates` wraps each axis toroidally and independently. For every
object whose size `s` is at least `-300` (every size the game constructs is positive):
if `x > 800 + s` then `x` becomes `-s`; if `x < -s` then `x` becomes `800 + s`;
otherwise `x` is unchanged. The same holds for `y` with 600. The new `x` depends only on
the old `x` and the size, the new `y` only on the old `y` and the size. -/
theorem WrapCoordinates_per_axis (obj : SpaceObject) (hs : -300 ≤ obj.mSize) :
    ((obj.mPosition.x > 800 + (obj.mSize : ℚ) →
        (WrapCoordinates obj).mPosition.x = -(obj.mSize : ℚ)) ∧
     (obj.mPosition.x < -(obj.mSize : ℚ) →
        (WrapCoordinates obj).mPosition.x = 800 + (obj.mSize : ℚ)) ∧
     (¬ obj.mPosition.x > 800 + (obj.mSize : ℚ) → ¬ obj.mPosition.x < -(obj.mSize : ℚ) →
        (WrapCoordinates obj).mPosition.x = obj.mPosition.x)) ∧
    ((obj.mPosition.y > 600 + (obj.mSize : ℚ) →
        (WrapCoordinates obj).mPosition.y = -(obj.mSize : ℚ)) ∧
     (obj.mPosition.y < -(obj.mSize : ℚ) →
        (WrapCoordinates obj).mPosition.y = 600 + (obj.mSize : ℚ)) ∧
     (¬ obj.mPosition.y > 600 + (obj.mSize : ℚ) → ¬ obj.mPosition.y < -(obj.mSize : ℚ) →
        (WrapCoordinates obj).mPosition.y = obj.mPosition.y)) ∧
    (∀ other : SpaceObject, other.mSize = obj.mSize →
      (other.mPosition.x = obj.mPosition.x →
        (WrapCoordinates other).mPosition.x = (WrapCoordinates obj).mPosition.x) ∧
      (other.mPosition.y = obj.mPosition.y →
        (WrapCoordinates other).mPosition.y = (WrapCoordinates obj).mPosition.y)) := by
  have hs' : (-300 : ℚ) ≤ (obj.mSize : ℚ) := by exact_mod_cast hs
  refine ⟨⟨?_, ?_, ?_⟩, ⟨?_, ?_, ?_⟩, ?_⟩
  · intro h
    rw [WrapCoordinates_x, if_pos h]
  · intro h2
    have h1 : ¬ obj.mPosition.x > 800 + (obj.mSize : ℚ) := by
      intro h
      linarith
    rw [WrapCoordinates_x, if_neg h1, if_pos h2]
  · intro h1 h2
    rw [WrapCoordinates_x, if_neg h1, if_neg h2]
  · intro h
    rw [WrapCoordinates_y, if_pos h]
  · intro h2
    have h1 : ¬ obj.mPosition.y > 600 + (obj.mSize : ℚ) := by
      intro h
      linarith
    rw [WrapCoordinates_y, if_neg h1, if_pos h2]
  · intro h1 h2
    rw [WrapCoordinates_y, if_neg h1, if_neg h2]
  · intro other hso
    constructor
    · intro hx
      rw [WrapCoordinates_x, WrapCoordinates_x, hso, hx]
    · intro hy
      rw [WrapCoordinates_y, WrapCoordinates_y, hso, hy]

/-- C1, at the asteroid of size 48 at `(900, -50)`: `x` is above `848` and wraps to
`-48`, `y` is below `-48` and wraps to `648`. -/
theorem WrapCoordinates_per_axis_at_asteroid :
    (-300 : Int) ≤ 48 ∧
    (WrapCoordinates ⟨⟨900, -50⟩, ⟨8, -6⟩, 1 / 2, 48⟩).mPosition.x = -48 ∧
    (WrapCoordinates ⟨⟨900, -50⟩, ⟨8, -6⟩, 1 / 2, 48⟩).mPosition.y = 648 := by
  have h := WrapCoordinates_per_axis ⟨⟨900, -50⟩, ⟨8, -6⟩, 1 / 2, 48⟩ (by decide)
  refine ⟨by decide, ?_, ?_⟩
  · have hx := h.1.1 (by norm_num)
    rw [hx]
    norm_num
  · have hy := h.2.1.2.1 (by norm_num)
    rw [hy]
    norm_num

/-- C10. For an object of non-negative size, the position after `Game::WrapCoordinates`
lies in `[-s, 800 + s] x [-s, 600 + s]`, a second call changes nothing, and size,
velocity and rotation are those of the argument. -/
theorem WrapCoordinates_box_idempotent (obj : SpaceObject) (hs : 0 ≤ obj.mSize) :
    (-(obj.mSize : ℚ) ≤ (WrapCoordinates obj).mPosition.x ∧
      (WrapCoordinates obj).mPosition.x ≤ 800 + (obj.mSize : ℚ) ∧
      -(obj.mSize : ℚ) ≤ (WrapCoordinates obj).mPosition.y ∧
      (WrapCoordinates obj).mPosition.y ≤ 600 + (obj.mSize : ℚ)) ∧
    WrapCoordinates (WrapCoordinates obj) = WrapCoordinates obj ∧
    (WrapCoordinates obj).mSize = obj.mSize ∧
    (WrapCoordinates obj).mVelocity = obj.mVelocity ∧
    (WrapCoordinates obj).mRotation = obj.mRotation := by
  have hs' : (0 : ℚ) ≤ (obj.mSize : ℚ) := by exact_mod_cast hs
  have hbox : -(obj.mSize : ℚ) ≤ (WrapCoordinates obj).mPosition.x ∧
      (WrapCoordinates obj).mPosition.x ≤ 800 + (obj.mSize : ℚ) ∧
      -(obj.mSize : ℚ) ≤ (WrapCoordinates obj).mPosition.y ∧
      (WrapCoordinates obj).mPosition.y ≤ 600 + (obj.mSize : ℚ) := by
    rw [WrapCoordinates_x, WrapCoordinates_y]
    refine ⟨?_, ?_, ?_, ?_⟩ <;> split_ifs <;> linarith
  refine ⟨hbox, ?_, rfl, rfl, rfl⟩
  exact WrapCoordinates_eq_self (WrapCoordinates obj) hbox.1 hbox.2.1 hbox.2.2.1 hbox.2.2.2

/-- C10, at an object of size 20 at `(900, -50)`. -/
theorem WrapCoordinates_box_idempotent_at_object :
    (0 : Int) ≤ 20 ∧
    WrapCoordinates (WrapCoordinates ⟨⟨900, -50⟩, ⟨1, 1⟩, 0, 20⟩)
      = WrapCoordinates ⟨⟨900, -50⟩, ⟨1, 1⟩, 0, 20⟩ :=
  ⟨by decide, (WrapCoordinates_box_idempotent ⟨⟨900, -50⟩, ⟨1, 1⟩, 0, 20⟩ (by decide)).2.1⟩

/-! ### `SetIsDead` and `Update` -/

theorem clampDeltaTime_mDeltaTime (g : Game) :
    (clampDeltaTime g).mDeltaTime = min g.mDeltaTime (1 / 20) := by
  unfold clampDeltaTime
  split_ifs with h
  · exact (min_eq_right (le_of_lt h)).symm
  · exact (min_eq_left (not_lt.mp h)).symm

theorem clampDeltaTime_mIsDead (g : Game) : (clampDeltaTime g).mIsDead = g.mIsDead := by
  unfold clampDeltaTime
  split_ifs <;> rfl

theorem clampDeltaTime_mAsteroidsMap (g : Game) :
    (clampDeltaTime g).mAsteroidsMap = g.mAsteroidsMap := by
  unfold clampDeltaTime
  split_ifs <;> rfl

theorem Update_dead (shipUpdate : ℚ → Game → Game) (asteroidUpdate : ℚ → Asteroid → Asteroid)
    (peek1 peek2 : Nat) (g : Game) (hdead : g.mIsDead = true) :
    Update shipUpdate asteroidUpdate peek1 peek2 g =
      some { clampDeltaTime { g with mDeltaTime := measuredDelta peek1 g.mTicksCount } with
        mTicksCount := peek2 % 2 ^ 64 } := by
  simp [Update, clampDeltaTime_mIsDead, hdead]

theorem runUpdates_dead (shipUpdate : ℚ → Game → Game)
    (asteroidUpdate : ℚ → Asteroid → Asteroid) (readings : List (Nat × Nat)) :
    ∀ g : Game, g.mIsDead = true → g.mAsteroidsMap = [] →
      ∃ g1, runUpdates shipUpdate asteroidUpdate readings g = some g1 ∧
        g1.mAsteroidsMap = [] ∧ g1.mIsDead = true := by
  induction readings with
  | nil =>
    intro g hd hm
    exact ⟨g, rfl, hm, hd⟩
  | cons t ts ih =>
    intro g hd hm
    rw [runUpdates, Update_dead shipUpdate asteroidUpdate t.1 t.2 g hd, Option.some_bind]
    apply ih
    · simp [clampDeltaTime_mIsDead, hd]
    · simp [clampDeltaTime_mAsteroidsMap, hm]

/-- C6. `SetIsDead( true )` leaves the asteroid map empty whatever it held, and after any
run of `Update` calls that follows (any timer readings, any ship and asteroid behaviour)
the map is still empty and the game still dead; only `RestartGame` repopulates it. -/
theorem SetIsDead_true_map_stays_empty (shipUpdate : ℚ → Game → Game)
    (asteroidUpdate : ℚ → Asteroid → Asteroid) (readings : List (Nat × Nat)) (g : Game) :
    (SetIsDead true g).mAsteroidsMap = [] ∧
    ∃ g1, runUpdates shipUpdate asteroidUpdate readings (SetIsDead true g) = some g1 ∧
      g1.mAsteroidsMap = [] ∧ g1.mIsDead = true :=
  ⟨rfl, runUpdates_dead shipUpdate asteroidUpdate readings (SetIsDead true g) rfl rfl⟩

/-- C8 (counterexample). After one `AddAsteroid` the map holds an asteroid;
`SetIsDead( false )` empties it instead of leaving it as it was. -/
theorem SetIsDead_false_clears_map :
    ∃ g, AddAsteroid ⟨⟨75, 450⟩, ⟨8, -6⟩, 1 / 2, 48⟩ Game.ctor = some g ∧
      g.mAsteroidsMap.length = 1 ∧
      (SetIsDead false g).mAsteroidsMap = [] ∧
      (SetIsDead false g).mAsteroidsMap ≠ g.mAsteroidsMap := by
  refine ⟨_, rfl, ?_, rfl, ?_⟩
  · simp [Game.ctor, mapInsert, keys]
  · simp [SetIsDead, Game.ctor, mapInsert, keys]

/-- C8 (amended). `SetIsDead( isDead )` sets the death flag to `isDead` and clears the
asteroid map for either value of `isDead`; nothing else changes. -/
theorem SetIsDead_sets_flag_and_clears (isDead : Bool) (g : Game) :
    (SetIsDead isDead g).mIsDead = isDead ∧
    (SetIsDead isDead g).mAsteroidsMap = [] ∧
    (SetIsDead isDead g).mAsteroidsIndex = g.mAsteroidsIndex ∧
    (SetIsDead isDead g).mShip = g.mShip ∧
    (SetIsDead isDead g).mIsRunning = g.mIsRunning ∧
    (SetIsDead isDead g).mTicksCount = g.mTicksCount ∧
    (SetIsDead isDead g).mDeltaTime = g.mDeltaTime ∧
    (SetIsDead isDead g).mScoreCount = g.mScoreCount :=
  ⟨rfl, rfl, rfl, rfl, rfl, rfl, rfl, rfl⟩

theorem Update_uses_clamped (shipUpdate : ℚ → Game → Game)
    (asteroidUpdate : ℚ → Asteroid → Asteroid) (peek1 peek2 : Nat) (g : Game) (d : ℚ)
    (hd : min (measuredDelta peek1 g.mTicksCount) (1 / 20) = d) :
    Update shipUpdate asteroidUpdate peek1 peek2 g =
      Update (fun _ => shipUpdate d) (fun _ => asteroidUpdate d) peek1 peek2 g := by
  have h := clampDeltaTime_mDeltaTime { g with mDeltaTime := measuredDelta peek1 g.mTicksCount }
  simp only [] at h
  rw [hd] at h
  simp only [Update, h]

theorem Update_mDeltaTime (shipUpdate : ℚ → Game → Game)
    (asteroidUpdate : ℚ → Asteroid → Asteroid) (peek1 peek2 : Nat) (g g1 : Game)
    (h : Update shipUpdate asteroidUpdate peek1 peek2 g = some g1) :
    g1.mDeltaTime = min (measuredDelta peek1 g.mTicksCount) (1 / 20) := by
  have hc := clampDeltaTime_mDeltaTime
    { g with mDeltaTime := measuredDelta peek1 g.mTicksCount }
  simp only [] at hc
  unfold Update at h
  simp only [] at h
  split at h
  · split at h
    · exact absurd h (by simp)
    · split at h
      · exact absurd h (by simp)
      · simp only [Option.some.injEq] at h
        rw [← h]
        exact hc
  · simp only [Option.some.injEq] at h
    rw [← h]
    exact hc

theorem keys_append (m1 m2 : List (Int × Asteroid)) : keys (m1 ++ m2) = keys m1 ++ keys m2 := by
  simp [keys]

theorem mapInsert_of_not_mem (m : List (Int × Asteroid)) (k : Int) (v : Asteroid)
    (h : k ∉ keys m) : mapInsert m k v = m ++ [(k, v)] := by
  simp [mapInsert, h]

theorem mapInsert_of_mem (m : List (Int × Asteroid)) (k : Int) (v : Asteroid)
    (h : k ∈ keys m) : mapInsert m k v = m := by
  simp [mapInsert, h]

theorem AddAsteroid_of_lt (obj : SpaceObject) (g : Game) (h : g.mAsteroidsIndex < INT_MAX) :
    AddAsteroid obj g = some { g with
      mAsteroidsIndex := g.mAsteroidsIndex + 1
      mAsteroidsMap := mapInsert g.mAsteroidsMap (g.mAsteroidsIndex + 1)
        ⟨obj, ⟨255, 255, 0, 255⟩⟩ } := by
  simp [AddAsteroid, h]

theorem AddAsteroid_eq_some (obj : SpaceObject) (g g1 : Game) (h : AddAsteroid obj g = some g1) :
    g.mAsteroidsIndex < INT_MAX ∧
    g1 = { g with
      mAsteroidsIndex := g.mAsteroidsIndex + 1
      mAsteroidsMap := mapInsert g.mAsteroidsMap (g.mAsteroidsIndex + 1)
        ⟨obj, ⟨255, 255, 0, 255⟩⟩ } := by
  unfold AddAsteroid at h
  split_ifs at h with hlt
  simp only [Option.some.injEq] at h
  exact ⟨hlt, h.symm⟩

theorem AddAsteroid_step (obj : SpaceObject) (g : Game) (n : Int)
    (hn : g.mAsteroidsIndex = n) (hlt : n < INT_MAX) :
    ∃ g1, AddAsteroid obj g = some g1 ∧ g1.mAsteroidsIndex = n + 1 ∧
      g1.mAsteroidsMap = mapInsert g.mAsteroidsMap (n + 1) ⟨obj, ⟨255, 255, 0, 255⟩⟩ ∧
      g1.mShip = g.mShip ∧ g1.mIsDead = g.mIsDead ∧ g1.mTicksCount = g.mTicksCount := by
  subst hn
  exact ⟨_, AddAsteroid_of_lt obj g hlt, rfl, rfl, rfl, rfl, rfl⟩

theorem RestartGame_eq_some (shipInit : SpaceObject) (g : Game) :
    ∃ g1, RestartGame shipInit g = some g1 ∧ g1.mAsteroidsIndex = 7 ∧ g1.mIsDead = false ∧
      g1.mShip = some (Ship.new shipInit ⟨400, 500⟩ ⟨0, 255, 0, 255⟩) ∧
      g1.mTicksCount = g.mTicksCount ∧
      g1.mAsteroidsMap =
        mapInsert (mapInsert (mapInsert (mapInsert (mapInsert (mapInsert (mapInsert
          g.mAsteroidsMap
          1 ⟨⟨⟨75, 450⟩, ⟨8, -6⟩, 1 / 2, 48⟩, ⟨255, 255, 0, 255⟩⟩)
          2 ⟨⟨⟨75, 250⟩, ⟨8, -6⟩, 1 / 2, 48⟩, ⟨255, 255, 0, 255⟩⟩)
          3 ⟨⟨⟨185, 225⟩, ⟨8, -6⟩, 1 / 2, 48⟩, ⟨255, 255, 0, 255⟩⟩)
          4 ⟨⟨⟨300, 100⟩, ⟨8, -6⟩, 1 / 2, 96⟩, ⟨255, 255, 0, 255⟩⟩)
          5 ⟨⟨⟨600, 130⟩, ⟨8, -6⟩, 1 / 2, 96⟩, ⟨255, 255, 0, 255⟩⟩)
          6 ⟨⟨⟨300, 400⟩, ⟨8, -6⟩, 1 / 2, 96⟩, ⟨255, 255, 0, 255⟩⟩)
          7 ⟨⟨⟨600, 400⟩, ⟨8, -6⟩, 1 / 2, 96⟩, ⟨255, 255, 0, 255⟩⟩ := by
  obtain ⟨g1, e1, i1, m1, s1, d1, t1⟩ := AddAsteroid_step ⟨⟨75, 450⟩, ⟨8, -6⟩, 1 / 2, 48⟩
    { g with mShip := some (Ship.new shipInit ⟨400, 500⟩ ⟨0, 255, 0, 255⟩), mAsteroidsIndex := 0 }
    0 rfl (by decide)
  obtain ⟨g2, e2, i2, m2, s2, d2, t2⟩ :=
    AddAsteroid_step ⟨⟨75, 250⟩, ⟨8, -6⟩, 1 / 2, 48⟩ g1 (0 + 1) i1 (by decide)
  obtain ⟨g3, e3, i3, m3, s3, d3, t3⟩ :=
    AddAsteroid_step ⟨⟨185, 225⟩, ⟨8, -6⟩, 1 / 2, 48⟩ g2 (0 + 1 + 1) i2 (by decide)
  obtain ⟨g4, e4, i4, m4, s4, d4, t4⟩ :=
    AddAsteroid_step ⟨⟨300, 100⟩, ⟨8, -6⟩, 1 / 2, 96⟩ g3 (0 + 1 + 1 + 1) i3 (by decide)
  obtain ⟨g5, e5, i5, m5, s5, d5, t5⟩ :=
    AddAsteroid_step ⟨⟨600, 130⟩, ⟨8, -6⟩, 1 / 2, 96⟩ g4 (0 + 1 + 1 + 1 + 1) i4 (by decide)
  obtain ⟨g6, e6, i6, m6, s6, d6, t6⟩ :=
    AddAsteroid_step ⟨⟨300, 400⟩, ⟨8, -6⟩, 1 / 2, 96⟩ g5 (0 + 1 + 1 + 1 + 1 + 1) i5 (by decide)
  obtain ⟨g7, e7, i7, m7, s7, d7, t7⟩ :=
    AddAsteroid_step ⟨⟨600, 400⟩, ⟨8, -6⟩, 1 / 2, 96⟩ g6 (0 + 1 + 1 + 1 + 1 + 1 + 1) i6
      (by decide)
  refine ⟨{ g7 with mIsDead := false }, ?_, ?_, rfl, ?_, ?_, ?_⟩
  · unfold RestartGame
    simp only [bind, pure]
    rw [e1, Option.some_bind, e2, Option.some_bind, e3, Option.some_bind, e4, Option.some_bind,
      e5, Option.some_bind, e6, Option.some_bind, e7, Option.some_bind]
  · rw [i7]
    rfl
  · rw [s7, s6, s5, s4, s3, s2, s1]
  · rw [t7, t6, t5, t4, t3, t2, t1]
  · show g7.mAsteroidsMap = _
    rw [m7, m6, m5, m4, m3, m2, m1]
    rfl

/-- C5 (counterexample). `RestartGame` on the freshly constructed game leaves the index
counter at 7, not 0. And when the map is not empty on entry (here: the player died, one
asteroid was added under index 8, then the game was restarted) the map holds 8 asteroids
afterwards, not exactly the 7 hardcoded ones. -/
theorem RestartGame_counter_is_seven :
    ∃ g1, RestartGame ⟨⟨0, 0⟩, ⟨0, 0⟩, 0, 0⟩ Game.ctor = some g1 ∧
      g1.mAsteroidsIndex = 7 ∧ g1.mAsteroidsIndex ≠ 0 ∧
      ∃ g2 g3, AddAsteroid ⟨⟨10, 10⟩, ⟨1, 1⟩, 0, 24⟩ (SetIsDead true g1) = some g2 ∧
        g2.mIsDead = true ∧
        RestartGame ⟨⟨0, 0⟩, ⟨0, 0⟩, 0, 0⟩ g2 = some g3 ∧
        g3.mAsteroidsMap.length = 8 := by
  obtain ⟨g1, e1, i1, -, -, -, -⟩ := RestartGame_eq_some ⟨⟨0, 0⟩, ⟨0, 0⟩, 0, 0⟩ Game.ctor
  have hi : (SetIsDead true g1).mAsteroidsIndex = 7 := i1
  obtain ⟨g2, e2, -, m2, -, d2, -⟩ :=
    AddAsteroid_step ⟨⟨10, 10⟩, ⟨1, 1⟩, 0, 24⟩ (SetIsDead true g1) 7 hi (by decide)
  obtain ⟨g3, e3, -, -, -, -, m3⟩ := RestartGame_eq_some ⟨⟨0, 0⟩, ⟨0, 0⟩, 0, 0⟩ g2
  refine ⟨g1, e1, i1, ?_, g2, g3, e2, d2, e3, ?_⟩
  · rw [i1]
    decide
  · rw [m3, m2]
    simp [SetIsDead, mapInsert, keys]

/-- C5 (amended). For every game state, `RestartGame` resets the index counter to zero
before it inserts the asteroids, which leaves the counter at 7; it clears the death flag
and puts a new ship at the spawn position `(400, 500)`. When the asteroid map is empty on
entry (as it is in `Init` and after `SetIsDead`), the map then holds exactly the 7
hardcoded asteroids, under the keys 1 to 7. -/
theorem RestartGame_resets (shipInit : SpaceObject) (g : Game) :
    ∃ g1, RestartGame shipInit g = some g1 ∧
      g1.mAsteroidsIndex = 7 ∧
      g1.mIsDead = false ∧
      (∃ ship, g1.mShip = some ship ∧ ship.mShip.mPosition = ⟨400, 500⟩) ∧
      (g.mAsteroidsMap = [] →
        g1.mAsteroidsMap =
          [(1, ⟨⟨⟨75, 450⟩, ⟨8, -6⟩, 1 / 2, 48⟩, ⟨255, 255, 0, 255⟩⟩),
           (2, ⟨⟨⟨75, 250⟩, ⟨8, -6⟩, 1 / 2, 48⟩, ⟨255, 255, 0, 255⟩⟩),
           (3, ⟨⟨⟨185, 225⟩, ⟨8, -6⟩, 1 / 2, 48⟩, ⟨255, 255, 0, 255⟩⟩),
           (4, ⟨⟨⟨300, 100⟩, ⟨8, -6⟩, 1 / 2, 96⟩, ⟨255, 255, 0, 255⟩⟩),
           (5, ⟨⟨⟨600, 130⟩, ⟨8, -6⟩, 1 / 2, 96⟩, ⟨255, 255, 0, 255⟩⟩),
           (6, ⟨⟨⟨300, 400⟩, ⟨8, -6⟩, 1 / 2, 96⟩, ⟨255, 255, 0, 255⟩⟩),
           (7, ⟨⟨⟨600, 400⟩, ⟨8, -6⟩, 1 / 2, 96⟩, ⟨255, 255, 0, 255⟩⟩)]) := by
  obtain ⟨g1, e1, i1, d1, s1, -, m1⟩ := RestartGame_eq_some shipInit g
  refine ⟨g1, e1, i1, d1, ⟨_, s1, rfl⟩, ?_⟩
  intro hm
  rw [m1, hm]
  simp [mapInsert, keys]

/-- C5 (amended), at the freshly constructed game: seven asteroids, counter 7. -/
theorem RestartGame_resets_at_ctor :
    ∃ g1, RestartGame ⟨⟨0, 0⟩, ⟨0, 0⟩, 0, 0⟩ Game.ctor = some g1 ∧
      g1.mAsteroidsIndex = 7 ∧ g1.mAsteroidsMap.length = 7 := by
  obtain ⟨g1, e1, i1, -, -, m1⟩ := RestartGame_resets ⟨⟨0, 0⟩, ⟨0, 0⟩, 0, 0⟩ Game.ctor
  refine ⟨g1, e1, i1, ?_⟩
  rw [m1 rfl]
  rfl

/-! ### The key invariant of the asteroid map -/

theorem AddAsteroid_keeps_keys (obj : SpaceObject) (g g1 : Game)
    (hnodup : (keys g.mAsteroidsMap).Nodup)
    (hkeys : ∀ k ∈ keys g.mAsteroidsMap, 0 < k ∧ k ≤ g.mAsteroidsIndex)
    (hidx : 0 ≤ g.mAsteroidsIndex) (h : AddAsteroid obj g = some g1) :
    g1.mAsteroidsIndex = g.mAsteroidsIndex + 1 ∧
    (g.mAsteroidsIndex + 1) ∉ keys g.mAsteroidsMap ∧
    g1.mAsteroidsMap =
      g.mAsteroidsMap ++ [(g.mAsteroidsIndex + 1, ⟨obj, ⟨255, 255, 0, 255⟩⟩)] ∧
    (keys g1.mAsteroidsMap).Nodup ∧
    (∀ k ∈ keys g1.mAsteroidsMap, 0 < k ∧ k ≤ g1.mAsteroidsIndex) ∧
    0 ≤ g1.mAsteroidsIndex := by
  obtain ⟨-, rfl⟩ := AddAsteroid_eq_some obj g g1 h
  have hfresh : (g.mAsteroidsIndex + 1) ∉ keys g.mAsteroidsMap := by
    intro hmem
    have := (hkeys _ hmem).2
    omega
  have hmap := mapInsert_of_not_mem g.mAsteroidsMap (g.mAsteroidsIndex + 1)
    ⟨obj, ⟨255, 255, 0, 255⟩⟩ hfresh
  refine ⟨rfl, hfresh, hmap, ?_, ?_, ?_⟩
  · show (keys (mapInsert _ _ _)).Nodup
    rw [hmap, keys_append]
    apply List.Nodup.append hnodup
    · simp [keys]
    · intro k hk1 hk2
      simp only [keys, List.map_cons, List.map_nil, List.mem_singleton] at hk2
      subst hk2
      exact hfresh hk1
  · intro k hk
    change k ∈ keys (mapInsert _ _ _) at hk
    show 0 < k ∧ k ≤ g.mAsteroidsIndex + 1
    rw [hmap, keys_append, List.mem_append] at hk
    rcases hk with hk | hk
    · have := hkeys k hk
      omega
    · simp only [keys, List.map_cons, List.map_nil, List.mem_singleton] at hk
      omega
  · show 0 ≤ g.mAsteroidsIndex + 1
    omega

theorem ReachableEmptyRestart_keys (g : Game) (h : ReachableEmptyRestart g) :
    (keys g.mAsteroidsMap).Nodup ∧
    (∀ k ∈ keys g.mAsteroidsMap, 0 < k ∧ k ≤ g.mAsteroidsIndex) ∧
    0 ≤ g.mAsteroidsIndex := by
  induction h with
  | init g hm hi =>
    rw [hm, hi]
    simp [keys]
  | addAsteroid g g1 obj _ hadd ih =>
    exact (AddAsteroid_keeps_keys obj g g1 ih.1 ih.2.1 ih.2.2 hadd).2.2.2
  | setIsDead g isDead _ ih =>
    refine ⟨?_, ?_, ih.2.2⟩
    · simp [SetIsDead, keys]
    · simp [SetIsDead, keys]
  | restartGame g g1 shipInit _ hm hrestart _ =>
    obtain ⟨g2, e2, i2, -, -, -, m2⟩ := RestartGame_eq_some shipInit g
    rw [hrestart, Option.some.injEq] at e2
    subst e2
    rw [i2, m2, hm]
    simp [mapInsert, keys]

theorem SessionStep_index_le (g g1 : Game) (h : SessionStep g g1) :
    g.mAsteroidsIndex ≤ g1.mAsteroidsIndex := by
  cases h with
  | addAsteroid _ obj hadd =>
    obtain ⟨-, rfl⟩ := AddAsteroid_eq_some obj g g1 hadd
    show g.mAsteroidsIndex ≤ g.mAsteroidsIndex + 1
    omega
  | setIsDead isDead => exact le_refl _

theorem SessionSteps_index_le (g g1 : Game) (h : Relation.ReflTransGen SessionStep g g1) :
    g.mAsteroidsIndex ≤ g1.mAsteroidsIndex := by
  induction h with
  | refl => exact le_refl _
  | tail _ hstep ih => exact le_trans ih (SessionStep_index_le _ _ hstep)

/-- C7 (counterexample). `RestartGame` on a game that still holds asteroids: restart the
fresh game (keys 1 to 7), add one asteroid (key 8), restart again. The counter is reset
and counts to 7 while the map keeps key 8, so a key exceeds the counter; the next
`AddAsteroid` hands out index 8 a second time and its asteroid is not inserted. -/
theorem RestartGame_on_live_map_reuses_index :
    ∃ g, Reachable g ∧
      (∃ k ∈ keys g.mAsteroidsMap, g.mAsteroidsIndex < k) ∧
      ∃ g1, AddAsteroid ⟨⟨20, 20⟩, ⟨1, 1⟩, 0, 24⟩ g = some g1 ∧
        g1.mAsteroidsIndex ∈ keys g.mAsteroidsMap ∧
        g1.mAsteroidsMap = g.mAsteroidsMap ∧
        g1.mAsteroidsMap.length ≠ g.mAsteroidsMap.length + 1 := by
  obtain ⟨g1, e1, i1, -, -, -, m1⟩ := RestartGame_eq_some ⟨⟨0, 0⟩, ⟨0, 0⟩, 0, 0⟩ Game.ctor
  obtain ⟨g2, e2, -, m2, -, -, -⟩ :=
    AddAsteroid_step ⟨⟨10, 10⟩, ⟨1, 1⟩, 0, 24⟩ g1 7 i1 (by decide)
  obtain ⟨g3, e3, i3, -, -, -, m3⟩ := RestartGame_eq_some ⟨⟨0, 0⟩, ⟨0, 0⟩, 0, 0⟩ g2
  obtain ⟨g4, e4, i4, m4, -, -, -⟩ :=
    AddAsteroid_step ⟨⟨20, 20⟩, ⟨1, 1⟩, 0, 24⟩ g3 7 i3 (by decide)
  have hr : Reachable g3 :=
    Reachable.restartGame g2 g3 _
      (Reachable.addAsteroid g1 g2 _
        (Reachable.restartGame Game.ctor g1 _ (Reachable.init Game.ctor rfl rfl) e1) e2) e3
  have hk3 : keys g3.mAsteroidsMap = [1, 2, 3, 4, 5, 6, 7, 8] := by
    rw [m3, m2, m1]
    simp [Game.ctor, mapInsert, keys]
  have hm4 : g4.mAsteroidsMap = g3.mAsteroidsMap := by
    rw [m4]
    apply mapInsert_of_mem
    rw [hk3]
    decide
  refine ⟨g3, hr, ⟨8, ?_, ?_⟩, g4, e4, ?_, hm4, ?_⟩
  · rw [hk3]
    decide
  · rw [i3]
    decide
  · rw [i4, hk3]
    decide
  · rw [hm4]
    omega

/-- C7 (amended). In every state reachable from the initial game state by `AddAsteroid`,
`SetIsDead` and `RestartGame`, where `RestartGame` is only invoked on an empty asteroid
map (as in `Init` and after `SetIsDead`), the keys of the map are unique, positive and no
larger than the index counter. So each `AddAsteroid` call assigns `counter + 1`, a key
the map does not hold, and appends a new entry under it: the size grows by one and the
old entries stay. And in any game state, two `AddAsteroid` calls of one session (no
`RestartGame` in between) hand out different indices, the later one the larger. -/
theorem AddAsteroid_fresh_index (g : Game) (h : ReachableEmptyRestart g) :
    ((keys g.mAsteroidsMap).Nodup ∧
      ∀ k ∈ keys g.mAsteroidsMap, 0 < k ∧ k ≤ g.mAsteroidsIndex) ∧
    (∀ obj g1, AddAsteroid obj g = some g1 →
      g1.mAsteroidsIndex = g.mAsteroidsIndex + 1 ∧
      g1.mAsteroidsIndex ∉ keys g.mAsteroidsMap ∧
      g1.mAsteroidsMap = g.mAsteroidsMap ++ [(g1.mAsteroidsIndex, ⟨obj, ⟨255, 255, 0, 255⟩⟩)] ∧
      g1.mAsteroidsMap.length = g.mAsteroidsMap.length + 1) ∧
    (∀ obj1 obj2 g0 g1 g2 g3, AddAsteroid obj1 g0 = some g1 →
      Relation.ReflTransGen SessionStep g1 g2 → AddAsteroid obj2 g2 = some g3 →
      g1.mAsteroidsIndex < g3.mAsteroidsIndex) := by
  have hinv := ReachableEmptyRestart_keys g h
  refine ⟨⟨hinv.1, hinv.2.1⟩, ?_, ?_⟩
  · intro obj g1 hadd
    have hstep := AddAsteroid_keeps_keys obj g g1 hinv.1 hinv.2.1 hinv.2.2 hadd
    refine ⟨hstep.1, ?_, ?_, ?_⟩
    · rw [hstep.1]
      exact hstep.2.1
    · rw [hstep.1]
      exact hstep.2.2.1
    · rw [hstep.2.2.1]
      simp
  · intro obj1 obj2 g0 g1 g2 g3 _ hsteps hadd2
    have h12 := SessionSteps_index_le g1 g2 hsteps
    obtain ⟨-, rfl⟩ := AddAsteroid_eq_some obj2 g2 g3 hadd2
    show g1.mAsteroidsIndex < g2.mAsteroidsIndex + 1
    omega

/-- C7 (amended), at the freshly constructed game: it is reachable, and the first
`AddAsteroid` assigns index 1 and makes the map hold one asteroid. -/
theorem AddAsteroid_fresh_index_at_ctor :
    ReachableEmptyRestart Game.ctor ∧
    ∃ g1, AddAsteroid ⟨⟨10, 10⟩, ⟨1, 1⟩, 0, 24⟩ Game.ctor = some g1 ∧
      g1.mAsteroidsIndex = 1 ∧ g1.mAsteroidsMap.length = 1 := by
  have hr : ReachableEmptyRestart Game.ctor := ReachableEmptyRestart.init Game.ctor rfl rfl
  obtain ⟨g1, e1, -, -, -, -, -⟩ :=
    AddAsteroid_step ⟨⟨10, 10⟩, ⟨1, 1⟩, 0, 24⟩ Game.ctor 0 rfl (by decide)
  have h := (AddAsteroid_fresh_index Game.ctor hr).2.1 _ g1 e1
  exact ⟨hr, g1, e1, h.1, h.2.2.2⟩

/-! ### `DrawWireFrameModel` -/

theorem FLT_MIN_pos : 0 < FLT_MIN := by
  norm_num [FLT_MIN]

theorem FLT_MIN_lt_one : FLT_MIN < 1 := by
  norm_num [FLT_MIN]

theorem FLT_MIN_le_FLT_MAX : FLT_MIN ≤ FLT_MAX := by
  norm_num [FLT_MIN, FLT_MAX]

theorem staticCastInt_FLT_MIN : staticCastInt FLT_MIN = some 0 := by
  have hfloor : ⌊FLT_MIN⌋ = 0 := by
    rw [Int.floor_eq_iff]
    exact ⟨by simpa using le_of_lt FLT_MIN_pos, by simpa using FLT_MIN_lt_one⟩
  unfold staticCastInt
  simp only [if_pos (le_of_lt FLT_MIN_pos), hfloor]
  decide

theorem clampToIntRange_of_le_FLT_MIN (value : ℚ) (h : value ≤ FLT_MIN) :
    clampToIntRange value = some 0 := by
  unfold clampToIntRange
  rw [min_eq_right (le_trans h FLT_MIN_le_FLT_MAX), max_eq_left h]
  exact staticCastInt_FLT_MIN

/-- C9 (the code at the failing input). A coordinate of `-5.0` is raised to
`numeric_limits<float>::min()`, a positive number below one, and reaches the line draw
as `0`, not as `-5`; the same happens to every coordinate that is zero or negative. The
one-vertex model `(0, 0)` drawn at `(-5, -5)` yields the segment from `(0, 0)` to
`(0, 0)`. A coordinate of `2^32`, above the `int` range, is not replaced by a bound: it
is below `numeric_limits<float>::max()` and its conversion to `int` is undefined. -/
theorem clampToIntRange_negative_gives_zero :
    clampToIntRange (-5) = some 0 ∧
    (∀ value : ℚ, value ≤ 0 → clampToIntRange value = some 0) ∧
    (∀ (cosf sinf : ℚ → ℚ) (r : ℚ),
      DrawWireFrameModel cosf sinf [(0, 0)] (-5) (-5) r 1 = some [((0, 0), (0, 0))]) ∧
    clampToIntRange 4294967296 = none := by
  have hneg : ∀ value : ℚ, value ≤ 0 → clampToIntRange value = some 0 := fun value hv =>
    clampToIntRange_of_le_FLT_MIN value (le_trans hv (le_of_lt FLT_MIN_pos))
  refine ⟨hneg _ (by norm_num), hneg, ?_, ?_⟩
  · intro cosf sinf r
    have h5 := hneg (-5) (by norm_num)
    have ht : transformVertices cosf sinf [(0, 0)] (-5) (-5) r 1 = [(-5, -5)] := by
      simp [transformVertices]
    unfold DrawWireFrameModel drawClosedPolygon
    rw [ht]
    simp only [List.length_singleton]
    rw [show List.range 1 = [0] from rfl, List.mapM_cons, List.mapM_nil]
    simp [h5]
  · unfold clampToIntRange
    have h1 : min FLT_MAX (4294967296 : ℚ) = 4294967296 := by
      apply min_eq_right
      norm_num [FLT_MAX]
    have h2 : max FLT_MIN (4294967296 : ℚ) = 4294967296 := by
      apply max_eq_right
      norm_num [FLT_MIN]
    have h3 : ⌊(4294967296 : ℚ)⌋ = 4294967296 := by
      rw [Int.floor_eq_iff]
      norm_num
    rw [h1, h2]
    unfold staticCastInt
    simp only [if_pos (show (0 : ℚ) ≤ 4294967296 by norm_num), h3]
    decide

end Asteroids
